import Mathlib

/-!
Verification development for the stock-buster repository.

The handlers in `src/infra/src/handlers` and the quote adapter in
`src/infra/src/services/yahooFinance.ts` are shallowly embedded as pure
Lean functions.  JavaScript numbers are modelled as rationals; DynamoDB
items touched by a handler are passed in and returned explicitly;
timestamps are opaque strings supplied by the caller.  A fallible
upstream call (DynamoDB or the quote HTTP API) is modelled by an
explicit outcome value describing what that call produced.
-/

namespace StockBuster

/-- A stored user record (table `USERS_TABLE`).  Fields other than
`userId`, `virtualBalance` and `updatedAt` may be absent from the stored
item, hence `Option`. -/
structure User where
  userId : String
  email : Option String
  firstName : Option String
  lastName : Option String
  createdAt : Option String
  cognitoUserId : Option String
  virtualBalance : ℚ
  updatedAt : String
  deriving Repr, DecidableEq

/-- A stored portfolio position for one (user, symbol) key
(table `PORTFOLIOS_TABLE`). -/
structure Portfolio where
  quantity : ℚ
  averagePrice : ℚ
  totalInvested : ℚ
  lastUpdated : String
  deriving Repr, DecidableEq

/-- An appended transaction record (table `TRANSACTIONS_TABLE`); the
uuid and ttl are irrelevant to the claims and omitted. -/
structure Transaction where
  symbol : String
  type : String
  quantity : ℚ
  price : ℚ
  totalAmount : ℚ
  timestamp : String
  deriving Repr, DecidableEq

/-- The slice of stored state a buy/sell handler for a fixed
(userId, symbol) pair can read or write: that user record, that
position, and the transaction log. -/
structure LedgerState where
  user : Option User
  position : Option Portfolio
  transactions : List Transaction
  deriving Repr, DecidableEq

/-- Request body of POST buy / POST sell. -/
structure TradeRequest where
  symbol : String
  quantity : ℚ
  price : ℚ
  deriving Repr, DecidableEq

/-- The request-body validation shared by `buyStock` and `sellStock`:
`!request.symbol || !request.quantity || !request.price ||
request.quantity <= 0 || request.price <= 0` (JavaScript falsiness of
the empty string and of 0). -/
def validTradeRequest (req : TradeRequest) : Prop :=
  req.symbol ≠ "" ∧ 0 < req.quantity ∧ 0 < req.price

instance (req : TradeRequest) : Decidable (validTradeRequest req) := by
  unfold validTradeRequest; infer_instance

/-- `buyStock` from `src/infra/src/handlers/portfolio.ts`, as a pure
function of the state slice it touches.  Returns the HTTP status code
and the state after the `TransactWriteCommand` (unchanged on any
rejection). -/
def buyStock (st : LedgerState) (req : TradeRequest) (now : String) :
    Nat × LedgerState :=
  if ¬ validTradeRequest req then (400, st)
  else
    match st.user with
    | none => (404, st)
    | some user =>
      let totalCost := req.quantity * req.price
      if user.virtualBalance < totalCost then (400, st)
      else
        let newPosition :=
          match st.position with
          | some currentPosition =>
            let newQuantity := currentPosition.quantity + req.quantity
            let newTotalInvested := currentPosition.totalInvested + totalCost
            let newAveragePrice := newTotalInvested / newQuantity
            { quantity := newQuantity
              averagePrice := newAveragePrice
              totalInvested := newTotalInvested
              lastUpdated := now : Portfolio }
          | none =>
            { quantity := req.quantity
              averagePrice := req.price
              totalInvested := totalCost
              lastUpdated := now : Portfolio }
        let txn : Transaction :=
          { symbol := req.symbol, type := "BUY"
            quantity := req.quantity, price := req.price
            totalAmount := totalCost, timestamp := now }
        (200,
          { user := some { user with
              virtualBalance := user.virtualBalance - totalCost
              updatedAt := now }
            position := some newPosition
            transactions := st.transactions ++ [txn] })

/-- `sellStock` from `src/infra/src/handlers/portfolio.ts`.  Returns the
HTTP status code, the state after the `TransactWriteCommand`, and the
`profitLoss` field of the 200 response body (`none` on rejection). -/
def sellStock (st : LedgerState) (req : TradeRequest) (now : String) :
    Nat × LedgerState × Option ℚ :=
  if ¬ validTradeRequest req then (400, st, none)
  else
    match st.position with
    | none => (404, st, none)
    | some currentPosition =>
      if currentPosition.quantity < req.quantity then (400, st, none)
      else
        match st.user with
        | none => (404, st, none)
        | some user =>
          let totalProceeds := req.quantity * req.price
          let soldInvestment :=
            currentPosition.totalInvested / currentPosition.quantity *
              req.quantity
          let newQuantity := currentPosition.quantity - req.quantity
          let newPosition : Option Portfolio :=
            if 0 < newQuantity then
              some { quantity := newQuantity
                     averagePrice := currentPosition.averagePrice
                     totalInvested :=
                       currentPosition.totalInvested - soldInvestment
                     lastUpdated := now }
            else none
          let txn : Transaction :=
            { symbol := req.symbol, type := "SELL"
              quantity := req.quantity, price := req.price
              totalAmount := totalProceeds, timestamp := now }
          (200,
            { user := some { user with
                virtualBalance := user.virtualBalance + totalProceeds
                updatedAt := now }
              position := newPosition
              transactions := st.transactions ++ [txn] },
            some (totalProceeds - soldInvestment))

/-- Run a list of buy requests (each with its timestamp) in order,
threading the stored state exactly as repeated invocations of the
handler would. -/
def runBuys (st : LedgerState) : List (TradeRequest × String) → LedgerState
  | [] => st
  | (req, now) :: rest => runBuys (buyStock st req now).2 rest

/-- The subsequence of requests that the handler committed (status 200)
when the list is run from `st`. -/
def committedBuys (st : LedgerState) :
    List (TradeRequest × String) → List TradeRequest
  | [] => []
  | (req, now) :: rest =>
    let r := buyStock st req now
    (if r.1 = 200 then [req] else []) ++ committedBuys r.2 rest

/-- Total quantity bought over a list of requests. -/
def sumQty (reqs : List TradeRequest) : ℚ :=
  (reqs.map (fun r => r.quantity)).sum

/-- Total cost `Σ qty_i * price_i` over a list of requests. -/
def sumCost (reqs : List TradeRequest) : ℚ :=
  (reqs.map (fun r => r.quantity * r.price)).sum

/-- Quantity held by an optional position (0 when absent). -/
def optQty : Option Portfolio → ℚ
  | none => 0
  | some p => p.quantity

/-- Total invested of an optional position (0 when absent). -/
def optTI : Option Portfolio → ℚ
  | none => 0
  | some p => p.totalInvested

/-- The cost-basis invariant: a present position's average price is its
total invested divided by its quantity. -/
def avgOK : Option Portfolio → Prop
  | none => True
  | some p => p.averagePrice = p.totalInvested / p.quantity

/-! Concrete fixtures, mirroring the worked example in the spec
(buy 10 AAPL at 50 with balance 1000, buy 5 more at 60, sell at 70). -/

/-- Example user with a 1000 balance and all optional fields present. -/
def exUser : User :=
  { userId := "u1", email := some "user@example.com"
    firstName := some "Ada", lastName := some "Lovelace"
    createdAt := some "t0", cognitoUserId := some "c1"
    virtualBalance := 1000, updatedAt := "t0" }

/-- Example user with a balance too small for `exBuy1`. -/
def exPoorUser : User := { exUser with virtualBalance := 100 }

/-- State with `exUser` and no open position. -/
def exState : LedgerState :=
  { user := some exUser, position := none, transactions := [] }

/-- State with `exPoorUser` and no open position. -/
def exPoorState : LedgerState :=
  { user := some exPoorUser, position := none, transactions := [] }

/-- State with no stored user record at all. -/
def exNoUserState : LedgerState :=
  { user := none, position := none, transactions := [] }

/-- Buy 10 shares at 50. -/
def exBuy1 : TradeRequest := { symbol := "AAPL", quantity := 10, price := 50 }

/-- Buy 5 shares at 60. -/
def exBuy2 : TradeRequest := { symbol := "AAPL", quantity := 5, price := 60 }

/-- The two example buys in sequence. -/
def exBuysSeq : List (TradeRequest × String) := [(exBuy1, "t1"), (exBuy2, "t2")]

/-- The position after the two example buys: 15 shares, 800 invested. -/
def exPos : Portfolio :=
  { quantity := 15, averagePrice := 160/3, totalInvested := 800
    lastUpdated := "t2" }

/-- State holding `exPos` for `exUser`. -/
def exSellState : LedgerState :=
  { user := some exUser, position := some exPos, transactions := [] }

/-- State holding `exPos` but with no stored user record. -/
def exNoUserPosState : LedgerState :=
  { user := none, position := some exPos, transactions := [] }

/-- Sell all 15 shares at 70. -/
def exSell : TradeRequest := { symbol := "AAPL", quantity := 15, price := 70 }

/-- Sell 5 of the 15 shares at 70. -/
def exSellPart : TradeRequest := { symbol := "AAPL", quantity := 5, price := 70 }

/-- Sell 20 shares, more than the 15 held. -/
def exSellTooMany : TradeRequest :=
  { symbol := "AAPL", quantity := 20, price := 70 }

/-! Movers Calculator (`src/infra/src/handlers/calcMoversDaily.ts`). -/

/-- One daily bar, restricted to the fields the movers job reads. -/
structure BarData where
  close : ℚ
  volume : ℚ
  deriving Repr, DecidableEq

/-- One row of the scan for todays bars: the symbol plus the optional
`exchange`/`sector` attributes stored on the bar item. -/
structure SymbolRow where
  symbol : String
  exchange : Option String
  sector : Option String
  deriving Repr, DecidableEq

/-- A computed mover row (the opaque timestamp field is omitted). -/
structure MoverData where
  symbol : String
  exchange : String
  sector : String
  price : ℚ
  change : ℚ
  changePercent : ℚ
  volume : ℚ
  rank : Nat
  deriving Repr, DecidableEq, Inhabited

/-- JavaScript `a || d` for an optional string attribute: the default
applies when the attribute is absent or the empty string (falsy). -/
def jsOr (s : Option String) (d : String) : String :=
  match s with
  | some v => if v = "" then d else v
  | none => d

/-- `extractExchangeFromSymbol` from calcMoversDaily.ts: map a symbol
suffix such as `.AX` to an exchange name, defaulting to NASDAQ. -/
def extractExchangeFromSymbol (symbol : String) : String :=
  let parts := symbol.splitOn "."
  if parts.length > 1 then
    let sfx := (parts.getLast?.getD "").toUpper
    if sfx = "AX" then "ASX"
    else if sfx = "L" then "LSE"
    else if sfx = "T" then "TSE"
    else if sfx = "HK" then "HKEX"
    else if sfx = "SS" then "SSE"
    else if sfx = "SZ" then "SZSE"
    else sfx
  else "NASDAQ"

/-- `Number(x.toFixed(2))`: the value rounded to two decimal places. -/
def round2 (x : ℚ) : ℚ := (round (x * 100) : ℤ) / 100

/-- The per-symbol body of `calculateDailyMovers`: given the optional
bars for today and yesterday, compute change and percent change and
keep the symbol only when the absolute percent change is at least 1.0.
A failed bar fetch is `none`, like a missing bar. -/
def processSymbol (row : SymbolRow) (today yesterday : Option BarData) :
    Option MoverData :=
  match today, yesterday with
  | some todayData, some yesterdayData =>
    let exchange := jsOr row.exchange (extractExchangeFromSymbol row.symbol)
    let sector := jsOr row.sector "Unknown"
    let change := todayData.close - yesterdayData.close
    let changePercent := change / yesterdayData.close * 100
    if 1 ≤ |changePercent| then
      some { symbol := row.symbol, exchange := exchange, sector := sector
             price := todayData.close, change := round2 change
             changePercent := round2 changePercent
             volume := todayData.volume, rank := 0 }
    else none
  | _, _ => none

/-- `calculateDailyMovers`: each input row carries the scanned symbol
attributes and the two fetched bars; the batching and inter-batch delay
of the source only throttle and do not change the resulting list. -/
def calculateDailyMovers
    (rows : List (SymbolRow × Option BarData × Option BarData)) :
    List MoverData :=
  rows.filterMap fun r => processSymbol r.1 r.2.1 r.2.2

/-- Stable insertion before the first element of strictly smaller
absolute percent change; models one step of the JavaScript stable
`sort((a, b) => Math.abs(b.changePercent) - Math.abs(a.changePercent))`. -/
def insertByAbsDesc (m : MoverData) : List MoverData → List MoverData
  | [] => [m]
  | x :: xs =>
    if |x.changePercent| < |m.changePercent| then m :: x :: xs
    else x :: insertByAbsDesc m xs

/-- Sort movers by descending absolute percent change. -/
def sortByAbsDesc (l : List MoverData) : List MoverData :=
  l.foldr insertByAbsDesc []

/-- The per-exchange pipeline of the daily movers `handler`: filter the
computed movers to one exchange, sort by absolute percent change
descending, keep the top 100, and assign ranks `index + 1`. -/
def rankMoversForExchange (moversData : List MoverData) (exchange : String) :
    List MoverData :=
  let sorted := sortByAbsDesc (moversData.filter fun m => m.exchange == exchange)
  (sorted.take 100).enum.map fun im => { im.2 with rank := im.1 + 1 }

/-! Quote Source Adapter (`src/infra/src/services/yahooFinance.ts`). -/

/-- The parsed `indicators.quote[0]` arrays of the chart payload. -/
structure QuoteArray where
  close : List ℚ
  volume : List ℚ
  deriving Repr, DecidableEq

/-- The parsed `meta` object of the chart payload; `previousClose` and
`marketCap` may be absent. -/
structure MetaData where
  symbol : String
  previousClose : Option ℚ
  marketCap : Option ℚ
  deriving Repr, DecidableEq

/-- The parsed `chart.result[0]` object; `meta` or the quote arrays may
be missing. -/
structure ChartResult where
  meta : Option MetaData
  quote : Option QuoteArray
  timestamp : List ℚ
  deriving Repr, DecidableEq

/-- The parsed response body; `result` is `none` when any of
`data.chart.result[0]` is missing. -/
structure ChartPayload where
  result : Option ChartResult
  deriving Repr, DecidableEq

/-- What one `fetch` of the quote endpoint produced: a network error
(the promise rejected), a non-OK HTTP status, or a parsed body. -/
inductive FetchOutcome
  | networkError
  | httpError (status : Nat)
  | ok (body : ChartPayload)
  deriving Repr, DecidableEq

/-- The normalized quote record.  A field is `none` where the
JavaScript value would be `undefined` or `NaN` (empty close array or
missing `previousClose`). -/
structure YahooQuote where
  symbol : String
  regularMarketPrice : Option ℚ
  regularMarketChange : Option ℚ
  regularMarketChangePercent : Option ℚ
  regularMarketVolume : ℚ
  regularMarketTime : Option ℚ
  shortName : String
  marketCap : Option ℚ
  deriving Repr, DecidableEq

/-- `YahooFinanceService.getQuote`, as a function of the fetch outcome
for the requested symbol.  The surrounding try/catch makes every
failure path return `null`, modelled as `none`. -/
def getQuote : FetchOutcome → Option YahooQuote
  | .networkError => none
  | .httpError _ => none
  | .ok body =>
    match body.result with
    | none => none
    | some result =>
      match result.meta, result.quote with
      | some meta, some quote =>
        let latestIndex := quote.close.length - 1
        let currentPrice := quote.close[latestIndex]?
        let change : Option ℚ :=
          match currentPrice, meta.previousClose with
          | some c, some pc => some (c - pc)
          | _, _ => none
        let changePercent : Option ℚ :=
          match change, meta.previousClose with
          | some ch, some pc => some (ch / pc * 100)
          | _, _ => none
        some { symbol := meta.symbol
               regularMarketPrice := currentPrice
               regularMarketChange := change
               regularMarketChangePercent := changePercent
               regularMarketVolume := (quote.volume[latestIndex]?).getD 0
               regularMarketTime := result.timestamp[latestIndex]?
               shortName := meta.symbol
               marketCap := meta.marketCap }
      | _, _ => none

/-- One settled promise of `Promise.allSettled` over `getQuote` calls:
`getQuote` never throws, so every promise fulfills. -/
def settleQuote (fetch : String → FetchOutcome) (s : String) :
    Except String (Option YahooQuote) :=
  Except.ok (getQuote (fetch s))

/-- `YahooFinanceService.getMultipleQuotes`: settle a `getQuote` call
per symbol, keep the fulfilled non-null results, and extract their
values. -/
def getMultipleQuotes (fetch : String → FetchOutcome)
    (symbols : List String) : List YahooQuote :=
  let results := symbols.map (settleQuote fetch)
  (results.filter fun r =>
    match r with
    | .ok (some _) => true
    | _ => false).filterMap fun r =>
    match r with
    | .ok q => q
    | .error _ => none

/-! Watchlist (`src/infra/src/handlers/watchlist.ts`). -/

/-- A stored watchlist row (table `WATCHLISTS_TABLE`). -/
structure WatchlistItem where
  userId : String
  symbol : String
  addedAt : String
  notes : Option String
  deriving Repr, DecidableEq

/-- Request body of POST watchlist. -/
structure AddToWatchlistRequest where
  symbol : String
  notes : Option String
  deriving Repr, DecidableEq

/-- Outcome of the `getQuote` validation call inside `addToWatchlist`:
the call threw, or returned a possibly-null quote. -/
inductive QuoteLookup
  | throws
  | returns (q : Option YahooQuote)
  deriving Repr, DecidableEq

/-- `addToWatchlist`: validate the body, validate the symbol via a live
quote lookup, then conditionally put the row (the condition expression
fails, producing 409, exactly when the (userId, symbol) key exists). -/
def addToWatchlist (table : List WatchlistItem) (userId : String)
    (body : Option AddToWatchlistRequest) (lookup : QuoteLookup)
    (now : String) : Nat × List WatchlistItem :=
  match body with
  | none => (400, table)
  | some request =>
    if request.symbol = "" then (400, table)
    else
      match lookup with
      | .throws => (400, table)
      | .returns none => (400, table)
      | .returns (some _) =>
        let item : WatchlistItem :=
          { userId := userId, symbol := request.symbol.toUpper
            addedAt := now, notes := request.notes }
        if table.any fun w =>
            w.userId == userId && w.symbol == request.symbol.toUpper
        then (409, table)
        else (201, table ++ [item])

/-! GetPortfolio (`src/infra/src/handlers/portfolio.ts`). -/

/-- A stored position together with its symbol, as returned by the
portfolio query. -/
structure PortfolioPos where
  symbol : String
  quantity : ℚ
  averagePrice : ℚ
  totalInvested : ℚ
  deriving Repr, DecidableEq

/-- Outcome of the per-position `getQuote` call in `getPortfolio`: the
call threw, returned null, or returned a quote whose
`regularMarketPrice` is the given number. -/
inductive PriceLookup
  | throws
  | missing
  | price (p : ℚ)
  deriving Repr, DecidableEq

/-- A position enriched with current value and unrealized P&L. -/
structure EnrichedPosition where
  pos : PortfolioPos
  currentValue : ℚ
  profitLoss : ℚ
  profitLossPercent : ℚ
  deriving Repr, DecidableEq

/-- The GET portfolio response body. -/
structure PortfolioSummary where
  totalValue : ℚ
  totalInvested : ℚ
  totalProfitLoss : ℚ
  totalProfitLossPercent : ℚ
  availableBalance : ℚ
  positions : List EnrichedPosition
  deriving Repr, DecidableEq

/-- The per-position enrichment loop body of `getPortfolio`: a live
price values the position at price times quantity; a null quote or a
thrown lookup falls back to average price with zero P&L. -/
def enrichPosition (position : PortfolioPos) (lookup : PriceLookup) :
    EnrichedPosition :=
  match lookup with
  | .price p =>
    let currentValue := p * position.quantity
    let profitLoss := currentValue - position.totalInvested
    { pos := position, currentValue := currentValue
      profitLoss := profitLoss
      profitLossPercent := profitLoss / position.totalInvested * 100 }
  | _ =>
    { pos := position
      currentValue := position.averagePrice * position.quantity
      profitLoss := 0, profitLossPercent := 0 }

/-- `getPortfolio`, as a function of the stored user, the queried
positions, and the quote lookup outcome per symbol. -/
def getPortfolio (user : Option User) (positions : List PortfolioPos)
    (lookup : String → PriceLookup) : Nat × Option PortfolioSummary :=
  match user with
  | none => (404, none)
  | some u =>
    let enriched := positions.map fun p => enrichPosition p (lookup p.symbol)
    let totalCurrentValue := (enriched.map fun e => e.currentValue).sum
    let totalInvested := (enriched.map fun e => e.pos.totalInvested).sum
    let totalProfitLoss := totalCurrentValue - totalInvested
    let totalProfitLossPercent :=
      if 0 < totalInvested then totalProfitLoss / totalInvested * 100 else 0
    (200, some
      { totalValue := totalCurrentValue, totalInvested := totalInvested
        totalProfitLoss := totalProfitLoss
        totalProfitLossPercent := totalProfitLossPercent
        availableBalance := u.virtualBalance, positions := enriched })

/-! updateUserBalance (`src/infra/src/handlers/users.ts`). -/

/-- `updateUserBalance`: validate the body (`balance` must be a
non-negative number, modelled as `Option ℚ` with `none` for a missing
or non-numeric value), then put an item holding only `userId`,
`virtualBalance` and `updatedAt` under the condition that the user
exists (condition failure yields 404). -/
def updateUserBalance (userId : String) (stored : Option User)
    (body : Option ℚ) (now : String) : Nat × Option User :=
  match body with
  | none => (400, stored)
  | some balance =>
    if balance < 0 then (400, stored)
    else
      match stored with
      | none => (404, none)
      | some _ =>
        (200, some
          { userId := userId, email := none, firstName := none
            lastName := none, createdAt := none, cognitoUserId := none
            virtualBalance := balance, updatedAt := now })

/-- Scan row for the spec example symbol TEST. -/
def exTestRow : SymbolRow :=
  { symbol := "TEST", exchange := some "NASDAQ", sector := some "Technology" }

/-- The spec example input: close goes from 40 to 50. -/
def exRows : List (SymbolRow × Option BarData × Option BarData) :=
  [(exTestRow, some { close := 50, volume := 1000 },
    some { close := 40, volume := 900 })]

/-- The mover row the spec example expects: change 10, percent 25. -/
def exTestMover : MoverData :=
  { symbol := "TEST", exchange := "NASDAQ", sector := "Technology"
    price := 50, change := 10, changePercent := 25, volume := 1000
    rank := 0 }

/-- A second example mover with percent change 8. -/
def exMover2 : MoverData := { exTestMover with symbol := "ABC", changePercent := 8 }

/-- A third example mover with percent change 5. -/
def exMover3 : MoverData := { exTestMover with symbol := "XYZ", changePercent := 5 }

/-- An unsorted list of example movers on the same exchange. -/
def exMoversList : List MoverData := [exMover3, exMover2]

/-- An example normalized quote. -/
def exQuote : YahooQuote :=
  { symbol := "AAPL", regularMarketPrice := some 150
    regularMarketChange := some 1, regularMarketChangePercent := some 1
    regularMarketVolume := 100, regularMarketTime := some 0
    shortName := "AAPL", marketCap := none }

/-- Example watchlist add request. -/
def exAddReq : AddToWatchlistRequest := { symbol := "AAPL", notes := none }

/-- Stored watchlist row for the same (user, symbol) pair as
`exAddReq`. -/
def exWatchItem : WatchlistItem :=
  { userId := "u1", symbol := exAddReq.symbol.toUpper, addedAt := "t0"
    notes := none }

/-- Watchlist table holding `exWatchItem`. -/
def exWatchTable : List WatchlistItem := [exWatchItem]

/-- Example position with a live quote available. -/
def exPortPosA : PortfolioPos :=
  { symbol := "AAPL", quantity := 10, averagePrice := 50
    totalInvested := 500 }

/-- Example position whose quote lookup returns null. -/
def exPortPosB : PortfolioPos :=
  { symbol := "MISS", quantity := 4, averagePrice := 25
    totalInvested := 100 }

/-- Example positions list. -/
def exPositions : List PortfolioPos := [exPortPosA, exPortPosB]

/-- Example quote lookup: AAPL resolves at price 60, everything else is
unavailable. -/
def exPortLookup : String → PriceLookup :=
  fun s => if s = "AAPL" then .price 60 else .missing

lemma buyStock_fail (st : LedgerState) (req : TradeRequest) (now : String)
    (h : (buyStock st req now).1 ≠ 200) : (buyStock st req now).2 = st := by
  by_cases hv : validTradeRequest req
  · match hu : st.user with
    | none => simp [buyStock, hv, hu]
    | some user =>
      by_cases hb : user.virtualBalance < req.quantity * req.price
      · simp [buyStock, hv, hu, hb]
      · exact absurd (by simp [buyStock, hv, hu, hb]) h
  · simp [buyStock, hv]

lemma buyStock_succ_none (st : LedgerState) (req : TradeRequest)
    (now : String) (user : User) (hu : st.user = some user)
    (hv : validTradeRequest req)
    (hb : ¬ user.virtualBalance < req.quantity * req.price)
    (hpos : st.position = none) :
    buyStock st req now =
      (200,
        { user := some { user with
            virtualBalance := user.virtualBalance - req.quantity * req.price
            updatedAt := now }
          position := some
            { quantity := req.quantity, averagePrice := req.price
              totalInvested := req.quantity * req.price, lastUpdated := now }
          transactions := st.transactions ++
            [{ symbol := req.symbol, type := "BUY", quantity := req.quantity
               price := req.price, totalAmount := req.quantity * req.price
               timestamp := now }] }) := by
  simp [buyStock, hv, hu, hb, hpos]

lemma buyStock_succ_some (st : LedgerState) (req : TradeRequest)
    (now : String) (user : User) (cur : Portfolio)
    (hu : st.user = some user) (hv : validTradeRequest req)
    (hb : ¬ user.virtualBalance < req.quantity * req.price)
    (hpos : st.position = some cur) :
    buyStock st req now =
      (200,
        { user := some { user with
            virtualBalance := user.virtualBalance - req.quantity * req.price
            updatedAt := now }
          position := some
            { quantity := cur.quantity + req.quantity
              averagePrice := (cur.totalInvested + req.quantity * req.price) /
                (cur.quantity + req.quantity)
              totalInvested := cur.totalInvested + req.quantity * req.price
              lastUpdated := now }
          transactions := st.transactions ++
            [{ symbol := req.symbol, type := "BUY", quantity := req.quantity
               price := req.price, totalAmount := req.quantity * req.price
               timestamp := now }] }) := by
  simp [buyStock, hv, hu, hb, hpos]

lemma buyStock_commit (st : LedgerState) (req : TradeRequest) (now : String)
    (hs : (buyStock st req now).1 = 200) :
    optQty (buyStock st req now).2.position =
      optQty st.position + req.quantity ∧
    optTI (buyStock st req now).2.position =
      optTI st.position + req.quantity * req.price ∧
    (avgOK st.position → avgOK (buyStock st req now).2.position) := by
  by_cases hv : validTradeRequest req
  · match hu : st.user with
    | none => simp [buyStock, hv, hu] at hs
    | some user =>
      by_cases hb : user.virtualBalance < req.quantity * req.price
      · simp [buyStock, hv, hu, hb] at hs
      · match hpos : st.position with
        | none =>
          rw [buyStock_succ_none st req now user hu hv hb hpos]
          refine ⟨by simp [optQty], by simp [optTI], fun _ => ?_⟩
          simp only [avgOK]
          exact (mul_div_cancel_left₀ req.price (ne_of_gt hv.2.1)).symm
        | some cur =>
          rw [buyStock_succ_some st req now user cur hu hv hb hpos]
          exact ⟨by simp [optQty], by simp [optTI], fun _ => by simp [avgOK]⟩
  · simp [buyStock, hv] at hs

lemma runBuys_invariant :
    ∀ (reqs : List (TradeRequest × String)) (st : LedgerState),
    avgOK st.position →
    optQty (runBuys st reqs).position =
      optQty st.position + sumQty (committedBuys st reqs) ∧
    optTI (runBuys st reqs).position =
      optTI st.position + sumCost (committedBuys st reqs) ∧
    avgOK (runBuys st reqs).position
  | [], st, h => by simp [runBuys, committedBuys, sumQty, sumCost, h]
  | (req, now) :: rest, st, h => by
    by_cases hs : (buyStock st req now).1 = 200
    · obtain ⟨hq, hti, havg⟩ := buyStock_commit st req now hs
      obtain ⟨ih1, ih2, ih3⟩ :=
        runBuys_invariant rest (buyStock st req now).2 (havg h)
      refine ⟨?_, ?_, ih3⟩ <;>
        simp only [runBuys, committedBuys, hs, if_pos, sumQty, sumCost,
          List.singleton_append, List.map_cons, List.sum_cons] at ih1 ih2 ⊢
      · rw [ih1, hq]; ring
      · rw [ih2, hti]; ring
    · have hst : (buyStock st req now).2 = st := buyStock_fail st req now hs
      have hr : runBuys st ((req, now) :: rest) = runBuys st rest := by
        simp only [runBuys, hst]
      have hc : committedBuys st ((req, now) :: rest) = committedBuys st rest := by
        simp only [committedBuys, hst, if_neg hs, List.nil_append]
      rw [hr, hc]
      exact runBuys_invariant rest st h

lemma sellStock_succ (st : LedgerState) (req : TradeRequest) (now : String)
    (cur : Portfolio) (user : User)
    (hpos : st.position = some cur) (hu : st.user = some user)
    (hv : validTradeRequest req)
    (hqty : ¬ cur.quantity < req.quantity) :
    sellStock st req now =
      (200,
        { user := some { user with
            virtualBalance := user.virtualBalance + req.quantity * req.price
            updatedAt := now }
          position :=
            if 0 < cur.quantity - req.quantity then
              some { quantity := cur.quantity - req.quantity
                     averagePrice := cur.averagePrice
                     totalInvested := cur.totalInvested -
                       cur.totalInvested / cur.quantity * req.quantity
                     lastUpdated := now }
            else none
          transactions := st.transactions ++
            [{ symbol := req.symbol, type := "SELL", quantity := req.quantity
               price := req.price, totalAmount := req.quantity * req.price
               timestamp := now }] },
        some (req.quantity * req.price -
          cur.totalInvested / cur.quantity * req.quantity)) := by
  simp [sellStock, hv, hpos, hqty, hu]

/-- Claim C1: every valid, sufficiently-funded buy commits with the
cost-basis equations of the spec: a first buy creates the position with
`quantity = qty`, `averagePrice = price`, `totalInvested = qty * price`;
a buy into an open position adds `qty` to the quantity and `qty * price`
to the total invested and sets the average price to the new total
invested over the new quantity; and over any sequence of buys run from a
state where the position is absent, the resulting position's total
invested is the sum of `qty_i * price_i` over the committed buys, its
quantity is the sum of their quantities, and its average price is total
invested over quantity. -/
theorem buyStock_cost_basis (st : LedgerState) (req : TradeRequest)
    (now : String) (user : User) (hu : st.user = some user)
    (hsym : req.symbol ≠ "") (hq : 0 < req.quantity) (hp : 0 < req.price)
    (hbal : req.quantity * req.price ≤ user.virtualBalance)
    (reqs : List (TradeRequest × String)) :
    (buyStock st req now).1 = 200 ∧
    (st.position = none →
      (buyStock st req now).2.position =
        some { quantity := req.quantity, averagePrice := req.price
               totalInvested := req.quantity * req.price
               lastUpdated := now }) ∧
    (∀ cur, st.position = some cur →
      (buyStock st req now).2.position =
        some { quantity := cur.quantity + req.quantity
               averagePrice := (cur.totalInvested + req.quantity * req.price) /
                 (cur.quantity + req.quantity)
               totalInvested := cur.totalInvested + req.quantity * req.price
               lastUpdated := now }) ∧
    (st.position = none →
      ∀ p, (runBuys st reqs).position = some p →
        p.quantity = sumQty (committedBuys st reqs) ∧
        p.totalInvested = sumCost (committedBuys st reqs) ∧
        p.averagePrice = p.totalInvested / p.quantity) := by
  have hv : validTradeRequest req := ⟨hsym, hq, hp⟩
  have hb : ¬ user.virtualBalance < req.quantity * req.price := not_lt.mpr hbal
  refine ⟨?_, ?_, ?_, ?_⟩
  · match hpos : st.position with
    | none => rw [buyStock_succ_none st req now user hu hv hb hpos]
    | some cur => rw [buyStock_succ_some st req now user cur hu hv hb hpos]
  · intro hpos
    rw [buyStock_succ_none st req now user hu hv hb hpos]
  · intro cur hpos
    rw [buyStock_succ_some st req now user cur hu hv hb hpos]
  · intro hpos p hp'
    have h0 : avgOK st.position := by rw [hpos]; exact trivial
    obtain ⟨i1, i2, i3⟩ := runBuys_invariant reqs st h0
    rw [hp'] at i1 i2 i3
    rw [hpos] at i1 i2
    exact ⟨by simpa [optQty] using i1, by simpa [optTI] using i2,
      by simpa [avgOK] using i3⟩

/-- Witness for C1 on the spec's worked example: the first buy commits
with position (10, 50, 500), and running both example buys from the
empty position yields total invested equal to the sum of committed
costs (800). -/
theorem buyStock_cost_basis_witness :
    (buyStock exState exBuy1 "t1").1 = 200 ∧
    (buyStock exState exBuy1 "t1").2.position =
      some { quantity := 10, averagePrice := 50, totalInvested := 500
             lastUpdated := "t1" } ∧
    exPos.quantity = sumQty (committedBuys exState exBuysSeq) ∧
    exPos.totalInvested = sumCost (committedBuys exState exBuysSeq) ∧
    exPos.averagePrice = exPos.totalInvested / exPos.quantity := by
  obtain ⟨h1, h2, -, h4⟩ :=
    buyStock_cost_basis exState exBuy1 "t1" exUser rfl (by decide)
      (by norm_num [exBuy1]) (by norm_num [exBuy1])
      (by norm_num [exBuy1, exUser]) exBuysSeq
  have hrun : (runBuys exState exBuysSeq).position = some exPos := by
    have haapl : ("AAPL" : String) ≠ "" := by decide
    norm_num [runBuys, buyStock, exState, exBuysSeq, exBuy1, exBuy2, exUser,
      exPos, validTradeRequest, haapl]
  obtain ⟨w1, w2, w3⟩ := h4 rfl exPos hrun
  have h2' := h2 rfl
  norm_num [exBuy1] at h2'
  exact ⟨h1, h2', w1, w2, w3⟩

/-- Claim C2: a valid sell of `qty ≤ oldQuantity` shares commits with
`newTotalInvested = oldTotalInvested - oldTotalInvested * (qty /
oldQuantity)`; the position is deleted exactly when `qty = oldQuantity`
and otherwise keeps quantity `oldQuantity - qty`; and the user balance
is credited by the proceeds `qty * price`. -/
theorem sellStock_proportional_basis (st : LedgerState) (req : TradeRequest)
    (now : String) (cur : Portfolio) (user : User)
    (hpos : st.position = some cur) (hu : st.user = some user)
    (hsym : req.symbol ≠ "") (hq : 0 < req.quantity) (hp : 0 < req.price)
    (hqty : req.quantity ≤ cur.quantity) :
    (sellStock st req now).1 = 200 ∧
    (∀ p, (sellStock st req now).2.1.position = some p →
      p.totalInvested =
        cur.totalInvested - cur.totalInvested * (req.quantity / cur.quantity)) ∧
    (req.quantity = cur.quantity →
      (sellStock st req now).2.1.position = none) ∧
    (req.quantity < cur.quantity →
      ∀ p, (sellStock st req now).2.1.position = some p →
        p.quantity = cur.quantity - req.quantity) ∧
    (sellStock st req now).2.1.user =
      some { user with
        virtualBalance := user.virtualBalance + req.quantity * req.price
        updatedAt := now } := by
  have hv : validTradeRequest req := ⟨hsym, hq, hp⟩
  have hnl : ¬ cur.quantity < req.quantity := not_lt.mpr hqty
  rw [sellStock_succ st req now cur user hpos hu hv hnl]
  refine ⟨rfl, ?_, ?_, ?_, rfl⟩
  · intro p hp'
    by_cases hpos' : 0 < cur.quantity - req.quantity
    · rw [if_pos hpos'] at hp'
      obtain rfl := (Option.some_injective _ hp').symm
      show cur.totalInvested - cur.totalInvested / cur.quantity * req.quantity =
        cur.totalInvested - cur.totalInvested * (req.quantity / cur.quantity)
      ring
    · rw [if_neg hpos'] at hp'
      exact absurd hp' (by simp)
  · intro heq
    have : cur.quantity - req.quantity = 0 := by rw [heq]; ring
    rw [this]
    simp
  · intro hlt p hp'
    rw [if_pos (sub_pos.mpr hlt)] at hp'
    obtain rfl := (Option.some_injective _ hp').symm
    rfl

/-- Witness for C2 on the spec's worked example: selling all 15 shares
at 70 commits, removes the position, and credits the balance by 1050. -/
theorem sellStock_proportional_basis_witness :
    (sellStock exSellState exSell "t3").1 = 200 ∧
    (sellStock exSellState exSell "t3").2.1.position = none ∧
    (sellStock exSellState exSell "t3").2.1.user =
      some { exUser with
        virtualBalance := exUser.virtualBalance + exSell.quantity * exSell.price
        updatedAt := "t3" } := by
  obtain ⟨h1, -, h3, -, h5⟩ :=
    sellStock_proportional_basis exSellState exSell "t3" exPos exUser rfl rfl
      (by decide) (by norm_num [exSell]) (by norm_num [exSell])
      (by norm_num [exSell, exPos])
  exact ⟨h1, h3 (by norm_num [exSell, exPos]), h5⟩

/-- Claim C3: a buy whose cost exceeds the available balance, and a sell
of more shares than held, are rejected with status 400 and leave the
stored state unchanged; an unknown user (buy, or sell with an adequate
position) and a missing position (sell) yield status 404, likewise with
no state change. -/
theorem trade_rejections (st : LedgerState) (req : TradeRequest)
    (now : String) :
    (∀ user, st.user = some user → validTradeRequest req →
      user.virtualBalance < req.quantity * req.price →
      buyStock st req now = (400, st)) ∧
    (∀ cur, st.position = some cur → validTradeRequest req →
      cur.quantity < req.quantity →
      sellStock st req now = (400, st, none)) ∧
    (st.user = none → validTradeRequest req →
      buyStock st req now = (404, st)) ∧
    (st.position = none → validTradeRequest req →
      sellStock st req now = (404, st, none)) ∧
    (∀ cur, st.position = some cur → st.user = none →
      validTradeRequest req → req.quantity ≤ cur.quantity →
      sellStock st req now = (404, st, none)) := by
  refine ⟨?_, ?_, ?_, ?_, ?_⟩
  · intro user hu hv hb
    simp [buyStock, hv, hu, hb]
  · intro cur hpos hv hlt
    simp [sellStock, hv, hpos, hlt]
  · intro hu hv
    simp [buyStock, hv, hu]
  · intro hpos hv
    simp [sellStock, hv, hpos]
  · intro cur hpos hu hv hle
    simp [sellStock, hv, hpos, hu, not_lt.mpr hle]

/-- Witness for C3: an under-funded buy and an over-sized sell are
rejected with 400 and no state change, and a missing user or position
yields 404 with no state change. -/
theorem trade_rejections_witness :
    buyStock exPoorState exBuy1 "t1" = (400, exPoorState) ∧
    sellStock exSellState exSellTooMany "t1" = (400, exSellState, none) ∧
    buyStock exNoUserState exBuy1 "t1" = (404, exNoUserState) ∧
    sellStock exNoUserState exSell "t1" = (404, exNoUserState, none) ∧
    sellStock exNoUserPosState exSellPart "t1" = (404, exNoUserPosState, none) := by
  refine ⟨?_, ?_, ?_, ?_, ?_⟩
  · exact (trade_rejections exPoorState exBuy1 "t1").1 exPoorUser rfl
      ⟨by decide, by norm_num [exBuy1], by norm_num [exBuy1]⟩
      (by norm_num [exBuy1, exPoorUser, exUser])
  · exact (trade_rejections exSellState exSellTooMany "t1").2.1 exPos rfl
      ⟨by decide, by norm_num [exSellTooMany], by norm_num [exSellTooMany]⟩
      (by norm_num [exSellTooMany, exPos])
  · exact (trade_rejections exNoUserState exBuy1 "t1").2.2.1 rfl
      ⟨by decide, by norm_num [exBuy1], by norm_num [exBuy1]⟩
  · exact (trade_rejections exNoUserState exSell "t1").2.2.2.1 rfl
      ⟨by decide, by norm_num [exSell], by norm_num [exSell]⟩
  · exact (trade_rejections exNoUserPosState exSellPart "t1").2.2.2.2 exPos rfl
      rfl ⟨by decide, by norm_num [exSellPart], by norm_num [exSellPart]⟩
      (by norm_num [exSellPart, exPos])

/-- Claim C4: a partial sell (`0 < qty < quantity`) keeps the surviving
position's average price unchanged, stores exactly the proportionally
reduced cost basis (so the realized profit/loss is not written back),
and returns profit/loss equal to proceeds minus the proportional cost
basis removed. -/
theorem sellStock_keeps_averagePrice (st : LedgerState) (req : TradeRequest)
    (now : String) (cur : Portfolio) (user : User)
    (hpos : st.position = some cur) (hu : st.user = some user)
    (hsym : req.symbol ≠ "") (hq : 0 < req.quantity) (hp : 0 < req.price)
    (hlt : req.quantity < cur.quantity) :
    (sellStock st req now).1 = 200 ∧
    (sellStock st req now).2.1.position =
      some { quantity := cur.quantity - req.quantity
             averagePrice := cur.averagePrice
             totalInvested := cur.totalInvested -
               cur.totalInvested * req.quantity / cur.quantity
             lastUpdated := now } ∧
    (sellStock st req now).2.2 =
      some (req.quantity * req.price -
        cur.totalInvested * req.quantity / cur.quantity) := by
  have hv : validTradeRequest req := ⟨hsym, hq, hp⟩
  have hnl : ¬ cur.quantity < req.quantity := not_lt.mpr (le_of_lt hlt)
  rw [sellStock_succ st req now cur user hpos hu hv hnl]
  refine ⟨rfl, ?_, ?_⟩
  · show (if 0 < cur.quantity - req.quantity then _ else none) = _
    rw [if_pos (sub_pos.mpr hlt)]
    congr 2
    ring
  · show some _ = some _
    congr 1
    ring

/-- Witness for C4: selling 5 of the 15 example shares at 70 keeps the
average price 160/3, stores total invested 800 - 800*5/15, and returns
profit/loss 350 - 800*5/15. -/
theorem sellStock_keeps_averagePrice_witness :
    (sellStock exSellState exSellPart "t3").1 = 200 ∧
    (sellStock exSellState exSellPart "t3").2.1.position =
      some { quantity := exPos.quantity - exSellPart.quantity
             averagePrice := exPos.averagePrice
             totalInvested := exPos.totalInvested -
               exPos.totalInvested * exSellPart.quantity / exPos.quantity
             lastUpdated := "t3" } ∧
    (sellStock exSellState exSellPart "t3").2.2 =
      some (exSellPart.quantity * exSellPart.price -
        exPos.totalInvested * exSellPart.quantity / exPos.quantity) :=
  sellStock_keeps_averagePrice exSellState exSellPart "t3" exPos exUser rfl rfl
    (by decide) (by norm_num [exSellPart]) (by norm_num [exSellPart])
    (by norm_num [exSellPart, exPos])

lemma round_mono_rat {x y : ℚ} (h : x ≤ y) : round x ≤ round y := by
  rw [round_eq, round_eq]
  exact Int.floor_le_floor (by linarith)

lemma round_hundred : round ((100 : ℚ)) = 100 := by
  have h := round_intCast (α := ℚ) 100
  exact_mod_cast h

lemma round_neg_hundred : round ((-100 : ℚ)) = -100 := by
  have h := round_intCast (α := ℚ) (-100)
  exact_mod_cast h

lemma one_le_abs_round2 {x : ℚ} (h : 1 ≤ |x|) : 1 ≤ |round2 x| := by
  rcases le_abs.mp h with h1 | h1
  · have h2 : (100 : ℤ) ≤ round (x * 100) := by
      calc (100 : ℤ) = round ((100 : ℚ)) := round_hundred.symm
        _ ≤ round (x * 100) := round_mono_rat (by linarith)
    have h3 : (1 : ℚ) ≤ round2 x := by
      unfold round2
      rw [le_div_iff₀ (by norm_num : (0 : ℚ) < 100)]
      calc (1 : ℚ) * 100 = ((100 : ℤ) : ℚ) := by norm_num
        _ ≤ ((round (x * 100) : ℤ) : ℚ) := by exact_mod_cast h2
    exact le_trans h3 (le_abs_self _)
  · have h2 : round (x * 100) ≤ (-100 : ℤ) := by
      calc round (x * 100) ≤ round ((-100 : ℚ)) :=
            round_mono_rat (by linarith)
        _ = -100 := round_neg_hundred
    have h3 : round2 x ≤ -1 := by
      unfold round2
      rw [div_le_iff₀ (by norm_num : (0 : ℚ) < 100)]
      calc ((round (x * 100) : ℤ) : ℚ) ≤ ((-100 : ℤ) : ℚ) := by exact_mod_cast h2
        _ = -1 * 100 := by norm_num
    calc (1 : ℚ) ≤ -(round2 x) := by linarith
      _ ≤ |round2 x| := neg_le_abs _

/-- Claim C5: every mover row emitted by the daily movers calculation
has an absolute (rounded) percent change of at least 1.0, and comes
from an input row with both closes present whose raw percent change
`(todayClose - yesterdayClose) / yesterdayClose * 100` has absolute
value at least 1.0; the stored percent change is that raw value rounded
to two decimals. -/
theorem movers_min_threshold
    (rows : List (SymbolRow × Option BarData × Option BarData)) :
    ∀ m ∈ calculateDailyMovers rows, 1 ≤ |m.changePercent| ∧
      ∃ r ∈ rows, ∃ t y, r.2.1 = some t ∧ r.2.2 = some y ∧
        m.changePercent = round2 ((t.close - y.close) / y.close * 100) ∧
        1 ≤ |(t.close - y.close) / y.close * 100| := by
  intro m hm
  obtain ⟨r, hr, hps⟩ := List.mem_filterMap.mp hm
  rcases h1 : r.2.1 with _ | t
  · rw [h1] at hps
    simp [processSymbol] at hps
  · rcases h2 : r.2.2 with _ | y
    · rw [h1, h2] at hps
      simp [processSymbol] at hps
    · rw [h1, h2] at hps
      simp only [processSymbol] at hps
      split at hps
      case isTrue hcp =>
        obtain rfl := Option.some_injective _ hps
        exact ⟨one_le_abs_round2 hcp,
          r, hr, t, y, h1, h2, rfl, hcp⟩
      case isFalse hcp => exact absurd hps (by simp)

/-- Witness for C5 on the spec example (TEST going from 40 to 50): the
emitted mover has absolute percent change at least 1. -/
theorem movers_min_threshold_witness :
    1 ≤ |exTestMover.changePercent| := by
  have h10 : round2 ((10 : ℚ)) = 10 := by
    unfold round2
    have h := round_intCast (α := ℚ) 1000
    have h1 : round ((10 : ℚ) * 100) = 1000 := by
      rw [show ((10 : ℚ) * 100) = ((1000 : ℤ) : ℚ) by norm_num]
      exact h
    rw [h1]; norm_num
  have h25 : round2 ((25 : ℚ)) = 25 := by
    unfold round2
    have h := round_intCast (α := ℚ) 2500
    have h1 : round ((25 : ℚ) * 100) = 2500 := by
      rw [show ((25 : ℚ) * 100) = ((2500 : ℤ) : ℚ) by norm_num]
      exact h
    rw [h1]; norm_num
  have habs : (1 : ℚ) ≤ |((50 : ℚ) - 40) / 40 * 100| := by
    rw [show ((50 : ℚ) - 40) / 40 * 100 = 25 by norm_num]
    rw [abs_of_pos (by norm_num)]
    norm_num
  have hmem : exTestMover ∈ calculateDailyMovers exRows := by
    simp only [calculateDailyMovers, exRows, exTestRow, List.filterMap_cons,
      List.filterMap_nil, processSymbol, jsOr]
    rw [if_pos habs]
    simp only [if_neg (by decide : ¬ ("NASDAQ" : String) = ""),
      if_neg (by decide : ¬ ("Technology" : String) = "")]
    rw [show ((50 : ℚ) - 40) / 40 * 100 = 25 by norm_num,
      show ((50 : ℚ) - 40) = 10 by norm_num, h10, h25]
    simp [exTestMover]
  exact (movers_min_threshold exRows exTestMover hmem).1

lemma length_insertByAbsDesc (m : MoverData) :
    ∀ l : List MoverData, (insertByAbsDesc m l).length = l.length + 1
  | [] => rfl
  | x :: xs => by
    simp only [insertByAbsDesc]
    split
    · rfl
    · simp [length_insertByAbsDesc m xs]

lemma length_sortByAbsDesc (l : List MoverData) :
    (sortByAbsDesc l).length = l.length := by
  induction l with
  | nil => rfl
  | cons x xs ih =>
    simp only [sortByAbsDesc, List.foldr_cons] at ih ⊢
    rw [length_insertByAbsDesc, ih, List.length_cons]

lemma mem_insertByAbsDesc {y m : MoverData} :
    ∀ {l : List MoverData}, y ∈ insertByAbsDesc m l ↔ y = m ∨ y ∈ l := by
  intro l
  induction l with
  | nil => simp [insertByAbsDesc]
  | cons x xs ih =>
    simp only [insertByAbsDesc]
    split
    · simp [or_comm, or_assoc, or_left_comm]
    · simp only [List.mem_cons, ih]
      tauto

lemma pairwise_insertByAbsDesc (m : MoverData) :
    ∀ l : List MoverData,
    l.Pairwise (fun a b => |b.changePercent| ≤ |a.changePercent|) →
    (insertByAbsDesc m l).Pairwise
      (fun a b => |b.changePercent| ≤ |a.changePercent|)
  | [], _ => by simp [insertByAbsDesc]
  | x :: xs, h => by
    obtain ⟨hx, hxs⟩ := List.pairwise_cons.mp h
    simp only [insertByAbsDesc]
    split
    case isTrue hlt =>
      refine List.pairwise_cons.mpr ⟨?_, h⟩
      intro y hy
      rcases List.mem_cons.mp hy with rfl | hy'
      · exact le_of_lt hlt
      · exact le_trans (hx y hy') (le_of_lt hlt)
    case isFalse hge =>
      refine List.pairwise_cons.mpr ⟨?_, pairwise_insertByAbsDesc m xs hxs⟩
      intro y hy
      rcases mem_insertByAbsDesc.mp hy with rfl | hy'
      · exact not_lt.mp hge
      · exact hx y hy'

lemma pairwise_sortByAbsDesc (l : List MoverData) :
    (sortByAbsDesc l).Pairwise
      (fun a b => |b.changePercent| ≤ |a.changePercent|) := by
  induction l with
  | nil => simp [sortByAbsDesc]
  | cons x xs ih =>
    simpa only [sortByAbsDesc, List.foldr_cons] using
      pairwise_insertByAbsDesc x _ ih

lemma rankMoversForExchange_length (moversData : List MoverData)
    (exchange : String) :
    (rankMoversForExchange moversData exchange).length =
      min 100 (moversData.filter fun m => m.exchange == exchange).length := by
  simp [rankMoversForExchange, length_sortByAbsDesc]

/-- Claim C6: the ranked per-exchange mover set contains at most 100
rows, its ranks read exactly 1..N in list order, and the rows are
ordered by absolute percent change descending (so the row with the
largest absolute change has rank 1 and ranks are dense). -/
theorem movers_rank_dense (moversData : List MoverData) (exchange : String) :
    (rankMoversForExchange moversData exchange).length ≤ 100 ∧
    (rankMoversForExchange moversData exchange).map MoverData.rank =
      List.range' 1 (rankMoversForExchange moversData exchange).length ∧
    ∀ i j, i ≤ j → j < (rankMoversForExchange moversData exchange).length →
      |((rankMoversForExchange moversData exchange).getD j default).changePercent| ≤
        |((rankMoversForExchange moversData exchange).getD i default).changePercent| := by
  have hlen : (rankMoversForExchange moversData exchange).length =
      ((sortByAbsDesc (moversData.filter fun m =>
        m.exchange == exchange)).take 100).length := by
    simp [rankMoversForExchange]
  refine ⟨?_, ?_, ?_⟩
  · rw [hlen, List.length_take]
    exact min_le_left _ _
  · refine List.ext_getElem ?_ ?_
    · simp [rankMoversForExchange]
    · intro i h1 h2
      have hi : i < ((sortByAbsDesc (moversData.filter fun m =>
          m.exchange == exchange)).take 100).length := by
        simpa [rankMoversForExchange] using h1
      simp only [rankMoversForExchange, List.getElem_map, List.getElem_enum,
        List.getElem_range']
      omega
  · intro i j hij hj
    rcases eq_or_lt_of_le hij with rfl | hlt
    · exact le_refl _
    · have hjt : j < ((sortByAbsDesc (moversData.filter fun m =>
          m.exchange == exchange)).take 100).length := hlen ▸ hj
      have hit : i < ((sortByAbsDesc (moversData.filter fun m =>
          m.exchange == exchange)).take 100).length :=
        lt_of_le_of_lt hij hjt
      have hpw : ((sortByAbsDesc (moversData.filter fun m =>
          m.exchange == exchange)).take 100).Pairwise
          (fun a b => |b.changePercent| ≤ |a.changePercent|) :=
        List.Pairwise.sublist (List.take_sublist 100 _)
          (pairwise_sortByAbsDesc _)
      have hcp := List.pairwise_iff_getElem.mp hpw i j hit hjt hlt
      have hget : ∀ k (hk : k < (rankMoversForExchange moversData
          exchange).length),
          ((rankMoversForExchange moversData exchange).getD k
            default).changePercent =
          (((sortByAbsDesc (moversData.filter fun m =>
            m.exchange == exchange)).take 100).get
              ⟨k, hlen ▸ hk⟩).changePercent := by
        intro k hk
        rw [List.getD_eq_getElem?_getD, List.getElem?_eq_getElem hk,
          Option.getD_some]
        simp only [rankMoversForExchange, List.getElem_map,
          List.getElem_enum, List.get_eq_getElem]
      rw [hget j hj, hget i (lt_of_le_of_lt hij hj)]
      simpa using hcp

/-- Witness for C6: ranking the two example movers on NASDAQ yields at
most 100 rows, dense ranks 1..N, and descending absolute percent
change between the first two rows. -/
theorem movers_rank_dense_witness :
    (rankMoversForExchange exMoversList "NASDAQ").length ≤ 100 ∧
    (rankMoversForExchange exMoversList "NASDAQ").map MoverData.rank =
      List.range' 1 (rankMoversForExchange exMoversList "NASDAQ").length ∧
    |((rankMoversForExchange exMoversList "NASDAQ").getD 1
        default).changePercent| ≤
      |((rankMoversForExchange exMoversList "NASDAQ").getD 0
        default).changePercent| := by
  obtain ⟨h1, h2, h3⟩ := movers_rank_dense exMoversList "NASDAQ"
  refine ⟨h1, h2, h3 0 1 (by decide) ?_⟩
  rw [rankMoversForExchange_length]
  simp [exMoversList, exMover2, exMover3, exTestMover]

lemma getMultipleQuotes_eq (fetch : String → FetchOutcome) :
    ∀ symbols : List String,
    getMultipleQuotes fetch symbols =
      (symbols.map fun s => getQuote (fetch s)).filterMap id
  | [] => rfl
  | s :: rest => by
    have ih := getMultipleQuotes_eq fetch rest
    simp only [getMultipleQuotes, settleQuote, List.map_cons,
      List.filter_cons] at ih ⊢
    cases hq : getQuote (fetch s) with
    | none => simpa [hq, List.filterMap_cons] using ih
    | some q => simpa [hq, List.filterMap_cons] using ih

/-- Claim C7: `getQuote` yields `null` (not an exception) on a network
error, a non-OK HTTP status, a missing chart result, and a missing
`meta` or quote array; and `getMultipleQuotes` returns exactly the
non-null quote results of its symbol list, in order, silently dropping
the failures. -/
theorem getQuote_failure_policy :
    getQuote .networkError = none ∧
    (∀ status, getQuote (.httpError status) = none) ∧
    getQuote (.ok { result := none }) = none ∧
    (∀ res, res.meta = none ∨ res.quote = none →
      getQuote (.ok { result := some res }) = none) ∧
    (∀ fetch symbols, getMultipleQuotes fetch symbols =
      (symbols.map fun s => getQuote (fetch s)).filterMap id) := by
  refine ⟨rfl, fun _ => rfl, rfl, ?_, fun fetch symbols =>
    getMultipleQuotes_eq fetch symbols⟩
  intro res h
  rcases hm : res.meta with _ | m <;> rcases hq : res.quote with _ | q <;>
    simp_all [getQuote]

/-- Witness for C7: a payload with no `meta`, a 500 status, and a
network error on every symbol of a batch all degrade to null/empty. -/
theorem getQuote_failure_policy_witness :
    getQuote (.ok { result := some { meta := none, quote := some { close := [], volume := [] }, timestamp := [] } }) = none ∧
    getQuote (.httpError 500) = none ∧
    getMultipleQuotes (fun _ => .networkError) ["AAPL", "MSFT"] = [] := by
  obtain ⟨h1, h2, h3, h4, h5⟩ := getQuote_failure_policy
  refine ⟨h4 _ (Or.inl rfl), h2 500, ?_⟩
  rw [h5]
  simp [h1]

/-- Claim C8: a watchlist add whose live quote lookup throws or
returns null is rejected with 400 and the table is unchanged; an add
for a (user, symbol) pair already present is rejected with 409 and the
table is unchanged. -/
theorem addToWatchlist_rejections (table : List WatchlistItem)
    (userId : String) (request : AddToWatchlistRequest) (now : String) :
    addToWatchlist table userId (some request) .throws now = (400, table) ∧
    addToWatchlist table userId (some request) (.returns none) now
      = (400, table) ∧
    (∀ q, request.symbol ≠ "" →
      (∃ w ∈ table, w.userId = userId ∧ w.symbol = request.symbol.toUpper) →
      addToWatchlist table userId (some request) (.returns (some q)) now
        = (409, table)) := by
  refine ⟨?_, ?_, ?_⟩
  · by_cases h : request.symbol = "" <;> simp [addToWatchlist, h]
  · by_cases h : request.symbol = "" <;> simp [addToWatchlist, h]
  · intro q hsym hex
    have hany : (table.any fun w =>
        w.userId == userId && w.symbol == request.symbol.toUpper) = true := by
      rw [List.any_eq_true]
      obtain ⟨w, hw, h1, h2⟩ := hex
      exact ⟨w, hw, by simp [h1, h2]⟩
    simp [addToWatchlist, hsym, hany]

/-- Witness for C8: with AAPL already on the watchlist, a throwing or
null lookup yields 400 and a duplicate add yields 409, each leaving
the table as it was. -/
theorem addToWatchlist_rejections_witness :
    addToWatchlist exWatchTable "u1" (some exAddReq) .throws "t1"
      = (400, exWatchTable) ∧
    addToWatchlist exWatchTable "u1" (some exAddReq) (.returns none) "t1"
      = (400, exWatchTable) ∧
    addToWatchlist exWatchTable "u1" (some exAddReq)
      (.returns (some exQuote)) "t1" = (409, exWatchTable) := by
  obtain ⟨h1, h2, h3⟩ := addToWatchlist_rejections exWatchTable "u1" exAddReq "t1"
  exact ⟨h1, h2, h3 exQuote (by decide)
    ⟨exWatchItem, by simp [exWatchTable], rfl, rfl⟩⟩

/-- Claim C9: for an existing user, a position whose quote lookup threw
or returned null is valued at `averagePrice * quantity` with zero
profit/loss, the response totals are the sums of the per-position
current values and invested amounts, total P&L is their difference,
and the user's cash balance is returned alongside. -/
theorem getPortfolio_quote_degradation (u : User)
    (positions : List PortfolioPos) (lookup : String → PriceLookup) :
    (getPortfolio (some u) positions lookup).1 = 200 ∧
    ∀ s, (getPortfolio (some u) positions lookup).2 = some s →
      (∀ e ∈ s.positions,
        lookup e.pos.symbol = .throws ∨ lookup e.pos.symbol = .missing →
        e.currentValue = e.pos.averagePrice * e.pos.quantity ∧
        e.profitLoss = 0 ∧ e.profitLossPercent = 0) ∧
      s.totalValue = (s.positions.map fun e => e.currentValue).sum ∧
      s.totalInvested = (s.positions.map fun e => e.pos.totalInvested).sum ∧
      s.totalProfitLoss = s.totalValue - s.totalInvested ∧
      s.availableBalance = u.virtualBalance := by
  refine ⟨rfl, ?_⟩
  intro s hs
  simp only [getPortfolio] at hs
  obtain rfl := Option.some_injective _ hs
  refine ⟨?_, rfl, rfl, rfl, rfl⟩
  intro e he hlk
  obtain ⟨p, hp, rfl⟩ := List.mem_map.mp he
  have hpos_eq : (enrichPosition p (lookup p.symbol)).pos = p := by
    cases lookup p.symbol <;> rfl
  rw [hpos_eq] at hlk
  rcases hlk with h | h <;> rw [h] <;> exact ⟨rfl, rfl, rfl⟩

/-- Witness for C9: with AAPL priced and MISS unresolvable, the call
returns 200 and the MISS position degrades to average-price valuation
with zero P&L. -/
theorem getPortfolio_quote_degradation_witness :
    (getPortfolio (some exUser) exPositions exPortLookup).1 = 200 ∧
    (enrichPosition exPortPosB (exPortLookup exPortPosB.symbol)).currentValue =
      (enrichPosition exPortPosB
        (exPortLookup exPortPosB.symbol)).pos.averagePrice *
      (enrichPosition exPortPosB
        (exPortLookup exPortPosB.symbol)).pos.quantity ∧
    (enrichPosition exPortPosB (exPortLookup exPortPosB.symbol)).profitLoss
      = 0 := by
  obtain ⟨h1, h2⟩ :=
    getPortfolio_quote_degradation exUser exPositions exPortLookup
  obtain ⟨hdeg, -, -, -, -⟩ := h2 _ rfl
  obtain ⟨w1, w2, -⟩ := hdeg
    (enrichPosition exPortPosB (exPortLookup exPortPosB.symbol))
    (List.mem_map.mpr ⟨exPortPosB, by simp [exPositions], rfl⟩)
    (Or.inr (by decide))
  exact ⟨h1, w1, w2⟩

/-- Claim C10: updating the balance of an existing user replaces the
whole stored record with an item holding only `userId`,
`virtualBalance` and `updatedAt`; every other field (email, first and
last name, creation time, cognito id) is erased, whatever it was. -/
theorem updateUserBalance_replaces_record (userId : String) (u : User)
    (balance : ℚ) (now : String) (h : 0 ≤ balance) :
    updateUserBalance userId (some u) (some balance) now =
      (200, some { userId := userId, email := none, firstName := none
                   lastName := none, createdAt := none
                   cognitoUserId := none, virtualBalance := balance
                   updatedAt := now }) := by
  simp [updateUserBalance, not_lt.mpr h]

/-- Witness for C10: updating `exUser` (which has email, name, creation
time and cognito id set) to balance 5000 stores a record with all of
those fields absent. -/
theorem updateUserBalance_replaces_record_witness :
    updateUserBalance "u1" (some exUser) (some 5000) "t9" =
      (200, some { userId := "u1", email := none, firstName := none
                   lastName := none, createdAt := none
                   cognitoUserId := none, virtualBalance := 5000
                   updatedAt := "t9" }) :=
  updateUserBalance_replaces_record "u1" exUser 5000 "t9" (by norm_num)

end StockBuster
